import Mathlib

/-!
# httpdebug: access control and registration of the debug endpoints

A shallow embedding of `kisom/httpdebug`: the internal `Debug` type
(`internal/debug/debug.go`, `pprof.go`, `trace.go`), the tracing request
handlers (`trace/handlers.go`) and the package-level singleton API
(`debug.go`).

Conventions of the embedding.

* A Go pointer `*Debug` is passed as the value it points to; a method that
  mutates its receiver returns the new value.
* A Go panic is the `.error msg` case of `Except String`; an `error` result is
  an `Option Err` (`none` is the nil error).
* Go maps are association lists with unique keys; `range` visits them in list
  order.
* A closure that captures the pointer `d` reads the fields of `d` when it is
  called, so it is a function of the state of the `Debug` at call time.
* The mutex `lock` serialises the package-level calls; the embedding is
  sequential and does not represent it.
-/

namespace HttpDebug

/-! ## net, net/http: the parts of the standard library the code relies on -/

/-- A `net.IP`, by its bytes (four for IPv4, sixteen for IPv6). -/
structure IP where
  bytes : List Nat
  deriving DecidableEq, Repr

/-- The value of `net.ParseIP("127.0.0.1")`. -/
def ip127_0_0_1 : IP := ⟨[127, 0, 0, 1]⟩

/-- The value of `net.ParseIP("::1")`. -/
def ipLoopback6 : IP := ⟨[0, 0, 0, 0, 0, 0, 0, 0, 0, 0, 0, 0, 0, 0, 0, 1]⟩

/-- The value of `net.ParseIP("1.2.3.4")`. -/
def ip1_2_3_4 : IP := ⟨[1, 2, 3, 4]⟩

/-- Modelled from the spec: the request as far as this package looks at it. The
`whitelist` package (`whitelist.HTTPRequestLookup`) is not part of the
sources; the spec says it "extracts the caller's network address from the
request" and that the extraction can fail. The request carries the outcome of
that extraction: `remote = none` is a request whose address cannot be
extracted. -/
structure Request where
  path : String
  remote : Option IP
  deriving DecidableEq, Repr

/-- Modelled from the spec: `whitelist.HTTPRequestLookup`, the caller's address
or an error. -/
def HTTPRequestLookup (req : Request) : Except String IP :=
  match req.remote with
  | some ip => .ok ip
  | none => .error "whitelist: unable to look up the request address"

/-- What a handler has written to its `http.ResponseWriter`: the header map,
the status code once it is written, and the body. -/
structure ResponseWriter where
  header : List (String × String)
  status : Option Nat
  body : String
  deriving DecidableEq, Repr

/-- A response writer nothing has been written to. -/
def ResponseWriter.fresh : ResponseWriter := ⟨[], none, ""⟩

/-- Assignment `m[k] = v` on a Go map. -/
def mapSet {α : Type} (m : List (String × α)) (k : String) (v : α) : List (String × α) :=
  match m with
  | [] => [(k, v)]
  | (k0, v0) :: rest => if k0 = k then (k, v) :: rest else (k0, v0) :: mapSet rest k v

/-- The keys of a Go map. -/
def mapKeys {α : Type} (m : List (String × α)) : List String := m.map Prod.fst

/-- Lookup `m[k]` on a Go map. -/
def mapGet {α : Type} (m : List (String × α)) (k : String) : Option α :=
  match m with
  | [] => none
  | (k0, v0) :: rest => if k0 = k then some v0 else mapGet rest k

/-- The method `w.Header().Set(k, v)`. -/
def ResponseWriter.setHeader (w : ResponseWriter) (k v : String) : ResponseWriter :=
  { w with header := mapSet w.header k v }

/-- The method `w.WriteHeader(code)`: the first status code written stands. -/
def ResponseWriter.WriteHeader (w : ResponseWriter) (code : Nat) : ResponseWriter :=
  match w.status with
  | none => { w with status := some code }
  | some _ => w

/-- The method `w.Write(s)`: an implicit 200 when no status was written. -/
def ResponseWriter.Write (w : ResponseWriter) (s : String) : ResponseWriter :=
  let w1 := w.WriteHeader 200
  { w1 with body := w1.body ++ s }

/-- The status code the client sees. -/
def ResponseWriter.code (w : ResponseWriter) : Nat := w.status.getD 200

def StatusOK : Nat := 200
def StatusUnauthorized : Nat := 401
def StatusForbidden : Nat := 403
def StatusNotFound : Nat := 404
def StatusRequestTimeout : Nat := 408
def StatusInternalServerError : Nat := 500
def StatusServiceUnavailable : Nat := 503

/-- The function `http.StatusText`, on the codes this package uses. -/
def StatusText (code : Nat) : String :=
  if code = 200 then "OK"
  else if code = 401 then "Unauthorized"
  else if code = 403 then "Forbidden"
  else if code = 404 then "Not Found"
  else if code = 408 then "Request Timeout"
  else if code = 500 then "Internal Server Error"
  else if code = 503 then "Service Unavailable"
  else ""

/-- The function `http.Error`: a plain-text reply with the given code. -/
def httpError (w : ResponseWriter) (msg : String) (code : Nat) : ResponseWriter :=
  (((w.setHeader "Content-Type" "text/plain; charset=utf-8").setHeader
    "X-Content-Type-Options" "nosniff").WriteHeader code).Write (msg ++ "\n")

/-- The panic of a nil dereference. -/
def nilDeref : String := "runtime error: invalid memory address or nil pointer dereference"

/-! ## whitelist: the access list -/

/-- Modelled from the spec: the interface `whitelist.ACL`, "answers: is this
source address permitted?" (the `whitelist` package is not part of the
sources). A nil interface value is `none` of `Option ACL`. -/
structure ACL where
  Permitted : IP → Bool

/-- Modelled from the spec: a `whitelist.Basic`, the set of addresses added to
it; `NewBasic` is the empty one. -/
def NewBasic : List IP := []

/-- Modelled from the spec: `Basic.Add`. -/
def BasicAdd (l : List IP) (ip : IP) : List IP := l ++ [ip]

/-- Modelled from the spec: a `whitelist.Basic` as an `ACL`: an address is
permitted when it was added. -/
def BasicACL (l : List IP) : ACL := ⟨fun ip => decide (ip ∈ l)⟩

/-! ## Handlers -/

/-- The handlers of the profiling subsystem (package `pprof`, not part of the
sources): the five fixed ones and the handler of a named profile. -/
inductive Pprof where
  | Index | Cmdline | Profile | Symbol | Trace
  | Named (name : String)
  deriving DecidableEq, Repr

/-- A Go function value of type `func(http.ResponseWriter, *http.Request)`. -/
inductive HandlerFunc where
  /-- A function of the embedding application. -/
  | app (f : Request → ResponseWriter → ResponseWriter)
  /-- The function `forbidden` of `internal/debug/debug.go`. -/
  | forbidden
  /-- A handler of the profiling subsystem. -/
  | pprof (p : Pprof)
  /-- The function `trace.TraceRequest`. -/
  | TraceRequest
  /-- The function `trace.EventRequest`. -/
  | EventRequest

/-- A value of the interface `http.Handler`, by the way it was built. -/
inductive Handler where
  /-- The nil interface value. -/
  | nil
  /-- The conversion `http.HandlerFunc(f)`. -/
  | func (f : HandlerFunc)
  /-- The handler `whitelist.NewHandler(allow, deny, acl)` returns. -/
  | whitelist (allow deny : Handler) (acl : ACL)
  /-- The handler `http.TimeoutHandler(h, dt, msg)` returns. -/
  | timeout (h : Handler) (dt : Nat) (msg : String)

/-- An `http.ServeMux`: the registered patterns with their handlers. -/
structure ServeMux where
  entries : List (String × Handler)

/-- The function `http.NewServeMux`. -/
def NewServeMux : ServeMux := ⟨[]⟩

/-- The method `mux.Handle(pattern, handler)`; it panics on an empty pattern, a
nil handler and a pattern that is already registered. -/
def ServeMux.Handle (mux : ServeMux) (pat : String) (h : Handler) : Except String ServeMux :=
  if pat = "" then .error "http: invalid pattern"
  else match h with
    | .nil => .error "http: nil handler"
    | _ =>
      if pat ∈ mapKeys mux.entries then .error ("http: multiple registrations for " ++ pat)
      else .ok ⟨mux.entries ++ [(pat, h)]⟩

/-- The method `mux.Handle` applied to every entry of a map, in order. -/
def ServeMux.HandleAll (mux : ServeMux) : List (String × Handler) → Except String ServeMux
  | [] => .ok mux
  | (pat, h) :: rest =>
    match mux.Handle pat h with
    | .error e => .error e
    | .ok m => ServeMux.HandleAll m rest

/-- The longest registered pattern that ends in a slash and is a prefix of the
path, starting from the best one found so far. -/
def ServeMux.subtree (path : String) :
    List (String × Handler) → Option (String × Handler) → Option (String × Handler)
  | [], best => best
  | (pat, h) :: rest, best =>
    if pat.endsWith "/" ∧ pat.isPrefixOf path then
      match best with
      | some (p0, h0) =>
        if p0.length < pat.length then ServeMux.subtree path rest (some (pat, h))
        else ServeMux.subtree path rest (some (p0, h0))
      | none => ServeMux.subtree path rest (some (pat, h))
    else ServeMux.subtree path rest best

/-- The handler a mux picks for a path: the pattern equal to the path, else the
longest subtree pattern that is a prefix of it. Host patterns, path cleaning
and redirects are left out. -/
def ServeMux.lookup (mux : ServeMux) (path : String) : Option Handler :=
  match mapGet mux.entries path with
  | some h => some h
  | none => (ServeMux.subtree path mux.entries none).map Prod.snd

/-! ## internal/debug: the Debug type -/

/-- An admin authenticator, `func(*http.Request) bool`. Its first argument is
the value of the package variable `AllowSensitiveTrace` when it is called; a
panic inside it is the `.error` case. -/
abbrev AdminFn := Bool → Request → Except String Bool

/-- The struct `Debug` of `internal/debug/debug.go`. -/
structure Debug where
  acl : Option ACL
  admin : Option AdminFn
  timeo : Nat
  enpprof : Bool
  entrace : Bool
  setup : Bool
  mux : ServeMux
  endpoints : List (String × Handler)

/-- The type of the package variable `trace.AuthRequest`. The callbacks this
package installs capture the pointer `d`: they take the `Debug` as it is when
they are called, and the current value of `AllowSensitiveTrace`. -/
abbrev AuthFn := Debug → Bool → Request → Except String (Bool × Bool)

/-- The package variables the `Debug` methods read and write:
`debug.AllowSensitiveTrace` and `trace.AuthRequest`. -/
structure Globals where
  AllowSensitiveTrace : Bool
  AuthRequest : AuthFn

/-- The collaborators whose code is outside this package: the profiling
handlers, the two renderers of the tracing subsystem, and the time the inner
handler takes on a request (an input: real time is not computed). -/
structure Externals where
  pprof : Pprof → Request → ResponseWriter → ResponseWriter
  Render : Request → Bool → ResponseWriter → ResponseWriter
  RenderEvents : Request → Bool → ResponseWriter → ResponseWriter
  elapsed : Request → Nat

namespace debug

/-- The function `forbidden`: a standard 403 - Forbidden response. -/
def forbidden (w : ResponseWriter) (_r : Request) : ResponseWriter :=
  httpError w (StatusText StatusForbidden) StatusForbidden

/-- The function `DefaultAdminAuth`: the value of `AllowSensitiveTrace`. -/
def DefaultAdminAuth : AdminFn := fun AllowSensitiveTrace _req => .ok AllowSensitiveTrace

/-- The access list both `NewLocalhost` and `LocalAdmin` build. -/
def localhost : List IP := BasicAdd (BasicAdd NewBasic ip127_0_0_1) ipLoopback6

/-- The function `NewLocalhost` of `internal/debug/debug.go`. -/
def NewLocalhost (timeout : Nat) (pprofDisable traceDisable : Bool) : Debug :=
  { acl := some (BasicACL localhost)
    admin := some DefaultAdminAuth
    timeo := timeout
    enpprof := !pprofDisable
    entrace := !traceDisable
    setup := false
    mux := NewServeMux
    endpoints := [] }

set_option linter.unusedVariables false in
/-- The function `New` of `internal/debug/debug.go`. The parameter `admin` is
not used by the body. -/
def New (acl : Option ACL) (admin : Option AdminFn) (timeout : Nat)
    (pprofDisable traceDisable : Bool) : Debug :=
  { acl := acl
    admin := some DefaultAdminAuth
    timeo := timeout
    enpprof := !pprofDisable
    entrace := !traceDisable
    setup := false
    mux := NewServeMux
    endpoints := [] }

end debug

namespace whitelist

/-- Modelled from the spec: `whitelist.NewHandler` (the `whitelist` package is
not part of the sources). By the comment at its call site it "only returns an
error if either the first or third arguments are nil"; the `.error` case here
is that error result, not a panic. -/
def NewHandler (allow deny : Handler) (acl : Option ACL) : Except String Handler :=
  match allow, acl with
  | .nil, _ => .error "whitelist: allow cannot be nil"
  | _, none => .error "whitelist: ACL cannot be nil"
  | h, some a => .ok (.whitelist h deny a)

end whitelist

/-- The method `aclHandler`: apply the ACL to the endpoint. -/
def Debug.aclHandler (d : Debug) (h : Handler) : Except String Handler :=
  match d.acl with
  | none => .ok h
  | some _ =>
    match whitelist.NewHandler h (.func .forbidden) d.acl with
    | .error _ => .error "debug: whitelist.NewHandler should never error"
    | .ok h1 => .ok h1

/-- The method `aclHandlerFunc`. -/
def Debug.aclHandlerFunc (d : Debug) (f : HandlerFunc) : Except String Handler :=
  d.aclHandler (.func f)

/-- The method `timeout`: apply a timeout handler to the handler. -/
def Debug.timeout (d : Debug) (h : Handler) : Handler :=
  if d.timeo = 0 then h
  else .timeout h d.timeo (StatusText StatusRequestTimeout)

/-- The method `setupHandler`: the ACL, then the timeout around it. -/
def Debug.setupHandler (d : Debug) (f : HandlerFunc) : Except String Handler :=
  match d.aclHandlerFunc f with
  | .error e => .error e
  | .ok handler => .ok (d.timeout handler)

/-- The map `pprofEndpoints` of `internal/debug/pprof.go`. -/
def pprofEndpoints : List (String × HandlerFunc) :=
  [ ("/debug/pprof", .pprof .Index),
    ("/debug/pprof/", .pprof .Index),
    ("/debug/pprof/*", .pprof .Index),
    ("/debug/pprof/cmdline", .pprof .Cmdline),
    ("/debug/pprof/profile", .pprof .Profile),
    ("/debug/pprof/symbol", .pprof .Symbol),
    ("/debug/pprof/trace", .pprof .Trace) ]

/-- The map `traceEndpoints` of `internal/debug/trace.go`. -/
def traceEndpoints : List (String × HandlerFunc) :=
  [ ("/debug/requests", .TraceRequest),
    ("/debug/events", .EventRequest) ]

/-- The loop `for pat, h := range eps { d.endpoints[pat] = d.setupHandler(h) }`
of `pprofSetup` and `traceSetup`. -/
def Debug.addEndpoints (d : Debug) : List (String × HandlerFunc) → Except String Debug
  | [] => .ok d
  | (pat, h) :: rest =>
    match d.setupHandler h with
    | .error e => .error e
    | .ok g => Debug.addEndpoints { d with endpoints := mapSet d.endpoints pat g } rest

/-- The method `pprofSetup`. -/
def Debug.pprofSetup (d : Debug) : Except String Debug :=
  if d.setup then .ok d
  else d.addEndpoints pprofEndpoints

/-- The call `d.admin(req)`; a nil function value panics. -/
def Debug.callAdmin (d : Debug) (AllowSensitiveTrace : Bool) (req : Request) :
    Except String Bool :=
  match d.admin with
  | none => .error nilDeref
  | some f => f AllowSensitiveTrace req

/-- The closure of the first assignment in `aclAuthRequest` (trace.go:19). -/
def authOpen : AuthFn := fun d flag req =>
  match d.callAdmin flag req with
  | .error e => .error e
  | .ok sensitive => .ok (true, sensitive)

/-- The closure of the second assignment in `aclAuthRequest` (trace.go:25).
The call `d.acl.Permitted` on a nil `d.acl` panics. -/
def authACL : AuthFn := fun d flag req =>
  match HTTPRequestLookup req with
  | .error _ => .ok (false, false)
  | .ok reqIP =>
    match d.acl with
    | none => .error nilDeref
    | some acl =>
      let any := acl.Permitted reqIP
      match d.callAdmin flag req with
      | .error e => .error e
      | .ok sensitive => .ok (any, sensitive)

/-- The method `aclAuthRequest`: both assignments to `trace.AuthRequest`, the
second one outside the `if`. -/
def Debug.aclAuthRequest (d : Debug) (g : Globals) : Globals :=
  let g1 := if d.acl.isNone then { g with AuthRequest := authOpen } else g
  { g1 with AuthRequest := authACL }

/-- The method `traceSetup`. -/
def Debug.traceSetup (d : Debug) (g : Globals) : Except String (Globals × Debug) :=
  if d.setup then .ok (g, d)
  else
    let g1 := d.aclAuthRequest g
    match d.addEndpoints traceEndpoints with
    | .error e => .error e
    | .ok d1 => .ok (g1, d1)

/-- The method `Register`: set up the internal multiplexer. -/
def Debug.Register (d : Debug) (g : Globals) : Except String (Globals × Debug) :=
  if d.setup then .ok (g, d)
  else
    match (if d.enpprof then d.pprofSetup else .ok d) with
    | .error e => .error e
    | .ok d1 =>
      match (if d1.entrace then d1.traceSetup g else .ok (g, d1)) with
      | .error e => .error e
      | .ok (g2, d2) =>
        match d2.mux.HandleAll d2.endpoints with
        | .error e => .error e
        | .ok m => .ok (g2, { d2 with mux := m, setup := true })

/-- The method `SetAdminACL`. -/
def Debug.SetAdminACL (d : Debug) (acl : Option ACL) : Debug :=
  { d with admin := some (fun _ req =>
      match HTTPRequestLookup req with
      | .error _ => .ok false
      | .ok reqIP =>
        match acl with
        | none => .error nilDeref
        | some a => .ok (a.Permitted reqIP)) }

/-- The method `SetAdmin`. -/
def Debug.SetAdmin (d : Debug) (auth : Option AdminFn) : Debug :=
  { d with admin := auth }

/-- The method `LocalAdmin`. -/
def Debug.LocalAdmin (d : Debug) : Debug :=
  d.SetAdminACL (some (BasicACL debug.localhost))

/-- The method `Handle`. -/
def Debug.Handle (d : Debug) (pat : String) (h : Handler) : Except String Debug :=
  match d.aclHandler h with
  | .error e => .error e
  | .ok handler =>
    match d.mux.Handle pat (d.timeout handler) with
    | .error e => .error e
    | .ok m => .ok { d with mux := m }

/-- The method `HandleFunc`. -/
def Debug.HandleFunc (d : Debug) (pat : String) (f : HandlerFunc) : Except String Debug :=
  match d.setupHandler f with
  | .error e => .error e
  | .ok h =>
    match d.mux.Handle pat h with
    | .error e => .error e
    | .ok m => .ok { d with mux := m }

/-- Modelled from the spec: the method `Debug.AddProfile`, which is not part of
the sources. The spec: an "`AddProfile(name)` registration hook that exposes a
named custom profile under a predictable sub-path", and
"`AddProfile("pkg/x")` ... makes `<prefix>/pprof/pkg/x` return 200". -/
def Debug.AddProfile (d : Debug) (name : String) : Except String Debug :=
  d.HandleFunc ("/debug/pprof/" ++ name) (.pprof (.Named name))

/-! ## Serving a request -/

namespace trace

/-- The function `TraceRequest` of `trace/handlers.go`; `AuthRequest` is the
package variable as it stands when the request is served. -/
def TraceRequest (x : Externals) (AuthRequest : Request → Except String (Bool × Bool))
    (w : ResponseWriter) (req : Request) : Except String ResponseWriter :=
  match AuthRequest req with
  | .error e => .error e
  | .ok (any, sensitive) =>
    if !any then
      .ok (httpError w (StatusText StatusUnauthorized) StatusUnauthorized)
    else
      .ok (x.Render req sensitive (w.setHeader "Content-Type" "text/html; charset=utf-8"))

/-- The function `EventRequest` of `trace/handlers.go`. -/
def EventRequest (x : Externals) (AuthRequest : Request → Except String (Bool × Bool))
    (w : ResponseWriter) (req : Request) : Except String ResponseWriter :=
  match AuthRequest req with
  | .error e => .error e
  | .ok (any, sensitive) =>
    if !any then
      .ok (httpError w (StatusText StatusUnauthorized) StatusUnauthorized)
    else
      .ok (x.RenderEvents req sensitive (w.setHeader "Content-Type" "text/html; charset=utf-8"))

end trace

/-- Calling a function value `f(w, r)`. -/
def HandlerFunc.call (x : Externals) (auth : Request → Except String (Bool × Bool))
    (f : HandlerFunc) (w : ResponseWriter) (r : Request) : Except String ResponseWriter :=
  match f with
  | .app g => .ok (g r w)
  | .forbidden => .ok (debug.forbidden w r)
  | .pprof p => .ok (x.pprof p r w)
  | .TraceRequest => trace.TraceRequest x auth w r
  | .EventRequest => trace.EventRequest x auth w r

/-- The method `ServeHTTP` of a handler.

* `whitelist`: modelled from the spec (the `whitelist` package is not part of
  the sources): "extracts the caller's network address from the request; on
  extraction failure, treats the request as disallowed; otherwise queries
  `Permitted(address)`"; a disallowed request goes to the deny handler.
* `timeout`: the reply the inner handler writes when it finishes before the
  deadline (`elapsed` below the duration), else the reply of
  `http.TimeoutHandler`, 503 with the message as body. -/
def Handler.ServeHTTP (x : Externals) (auth : Request → Except String (Bool × Bool)) :
    Handler → ResponseWriter → Request → Except String ResponseWriter
  | .nil, _, _ => .error nilDeref
  | .func f, w, r => f.call x auth w r
  | .whitelist allow deny acl, w, r =>
    match HTTPRequestLookup r with
    | .error _ => Handler.ServeHTTP x auth deny w r
    | .ok ip =>
      if acl.Permitted ip then Handler.ServeHTTP x auth allow w r
      else Handler.ServeHTTP x auth deny w r
  | .timeout h dt msg, w, r =>
    if x.elapsed r < dt then Handler.ServeHTTP x auth h w r
    else .ok ((w.WriteHeader StatusServiceUnavailable).Write msg)

/-- The method `ServeHTTP` of a mux: the handler of the matching pattern, or
`http.NotFound`. -/
def ServeMux.ServeHTTP (x : Externals) (auth : Request → Except String (Bool × Bool))
    (mux : ServeMux) (w : ResponseWriter) (r : Request) : Except String ResponseWriter :=
  match mux.lookup r.path with
  | some h => h.ServeHTTP x auth w r
  | none => .ok (httpError w "404 page not found" StatusNotFound)

/-- The method `ServeHTTP` of `Debug`: multiplex the registered debug
endpoints. -/
def Debug.ServeHTTP (x : Externals) (g : Globals) (d : Debug)
    (w : ResponseWriter) (r : Request) : Except String ResponseWriter :=
  if !d.setup then
    .ok (httpError w (StatusText StatusInternalServerError) StatusInternalServerError)
  else
    d.mux.ServeHTTP x (g.AuthRequest d g.AllowSensitiveTrace) w r

/-- The method `Register`, called `n` times in a row. -/
def Debug.RegisterTimes : Nat → Debug → Globals → Except String (Globals × Debug)
  | 0, d, g => .ok (g, d)
  | n + 1, d, g =>
    match d.Register g with
    | .error e => .error e
    | .ok (g1, d1) => Debug.RegisterTimes n d1 g1

/-! ## Package httpdebug: the process-wide singleton -/

/-- The error values of package `httpdebug`. -/
inductive Err where
  | errAlreadyInit
  | errNotSetup
  deriving DecidableEq, Repr

/-- A handler on a mux of the embedding application: the package-level
debugger, or any other handler. -/
inductive AppHandler where
  | debugger
  | other (h : Handler)

/-- A mux of the embedding application (`http.DefaultServeMux`, or the one
passed to `Register`). -/
structure AppMux where
  entries : List (String × AppHandler)

/-- The method `mux.Handle` on a mux of the application. -/
def AppMux.Handle (mux : AppMux) (pat : String) (h : AppHandler) : Except String AppMux :=
  if pat = "" then .error "http: invalid pattern"
  else if pat ∈ mapKeys mux.entries then .error ("http: multiple registrations for " ++ pat)
  else .ok ⟨mux.entries ++ [(pat, h)]⟩

/-- The package variables: `debugger` (`none` is the nil pointer), the
variables of packages `debug` and `trace`, and `http.DefaultServeMux`. -/
structure Package where
  debugger : Option Debug
  globals : Globals
  DefaultServeMux : AppMux

namespace httpdebug

/-- The function `NewLocalhost` of `debug.go`. -/
def NewLocalhost (s : Package) (timeout : Nat) (pprofDisable traceDisable : Bool) :
    Option Err × Package :=
  match s.debugger with
  | some _ => (some .errAlreadyInit, s)
  | none =>
    (none, { s with debugger := some (debug.NewLocalhost timeout pprofDisable traceDisable) })

/-- The function `New` of `debug.go`. -/
def New (s : Package) (acl : Option ACL) (admin : Option AdminFn) (timeout : Nat)
    (pprofDisable traceDisable : Bool) : Option Err × Package :=
  match s.debugger with
  | some _ => (some .errAlreadyInit, s)
  | none =>
    (none, { s with debugger := some (debug.New acl admin timeout pprofDisable traceDisable) })

/-- The function `setup`. -/
def setup (s : Package) : Except String (Option Err × Package) :=
  match s.debugger with
  | none => .ok (some .errNotSetup, s)
  | some d =>
    match d.Register s.globals with
    | .error e => .error e
    | .ok (g, d1) => .ok (none, { s with debugger := some d1, globals := g })

/-- The function `Setup`. -/
def Setup (s : Package) : Except String (Option Err × Package) :=
  setup s

/-- The function `Handler`: the handler result, the error result, the state. -/
def Handler (s : Package) : Except String (Option AppHandler × Option Err × Package) :=
  match setup s with
  | .error e => .error e
  | .ok (some err, s1) => .ok (none, some err, s1)
  | .ok (none, s1) => .ok (some .debugger, none, s1)

/-- The function `HandlerFunc`; the method value `debugger.ServeHTTP` is given
by the handler it is the method of. -/
def HandlerFunc (s : Package) : Except String (Option AppHandler × Option Err × Package) :=
  match setup s with
  | .error e => .error e
  | .ok (some err, s1) => .ok (none, some err, s1)
  | .ok (none, s1) => .ok (some .debugger, none, s1)

/-- The function `Register`; a nil `mux` is `none`, and the mux passed in comes
back as it is after the call. -/
def Register (s : Package) (mux : Option AppMux) :
    Except String (Option Err × Option AppMux × Package) :=
  match setup s with
  | .error e => .error e
  | .ok (some err, s1) => .ok (some err, mux, s1)
  | .ok (none, s1) =>
    match mux with
    | none =>
      match s1.DefaultServeMux.Handle "/debug/" .debugger with
      | .error e => .error e
      | .ok m => .ok (none, none, { s1 with DefaultServeMux := m })
    | some m0 =>
      match m0.Handle "/debug/" .debugger with
      | .error e => .error e
      | .ok m => .ok (none, some m, s1)

/-- The function `SetAdminACL`: the method call on a nil `debugger` panics when
the method writes the field. -/
def SetAdminACL (s : Package) (acl : Option ACL) : Except String Package :=
  match s.debugger with
  | none => .error nilDeref
  | some d => .ok { s with debugger := some (d.SetAdminACL acl) }

/-- The function `SetAdmin`. -/
def SetAdmin (s : Package) (auth : Option AdminFn) : Except String Package :=
  match s.debugger with
  | none => .error nilDeref
  | some d => .ok { s with debugger := some (d.SetAdmin auth) }

/-- The function `LocalAdmin`. -/
def LocalAdmin (s : Package) : Except String Package :=
  match s.debugger with
  | none => .error nilDeref
  | some d => .ok { s with debugger := some d.LocalAdmin }

/-- The function `Handle`. -/
def Handle (s : Package) (pat : String) (h : HttpDebug.Handler) : Except String Package :=
  match s.debugger with
  | none => .error nilDeref
  | some d =>
    match d.Handle pat h with
    | .error e => .error e
    | .ok d1 => .ok { s with debugger := some d1 }

/-- The function `HandleFunc`. -/
def HandleFunc (s : Package) (pat : String) (f : HttpDebug.HandlerFunc) :
    Except String Package :=
  match s.debugger with
  | none => .error nilDeref
  | some d =>
    match d.HandleFunc pat f with
    | .error e => .error e
    | .ok d1 => .ok { s with debugger := some d1 }

/-- The function `AddProfile`. -/
def AddProfile (s : Package) (name : String) : Except String Package :=
  match s.debugger with
  | none => .error nilDeref
  | some d =>
    match d.AddProfile name with
    | .error e => .error e
    | .ok d1 => .ok { s with debugger := some d1 }

end httpdebug

/-- A call of a public operation of package `httpdebug` other than the two
constructors. -/
inductive Op where
  | Setup
  | Handler
  | HandlerFunc
  | Register (mux : Option AppMux)
  | SetAdminACL (acl : Option ACL)
  | SetAdmin (auth : Option AdminFn)
  | LocalAdmin
  | Handle (pat : String) (h : Handler)
  | HandleFunc (pat : String) (f : HandlerFunc)
  | AddProfile (name : String)

/-- What the caller of an operation sees: a panic (`.error`), or the return
with the error value and the package state after it. The six functions
without an error result return `none`. -/
def Op.call (op : Op) (s : Package) : Except String (Option Err × Package) :=
  match op with
  | .Setup => httpdebug.Setup s
  | .Handler => (httpdebug.Handler s).map (fun r => (r.2.1, r.2.2))
  | .HandlerFunc => (httpdebug.HandlerFunc s).map (fun r => (r.2.1, r.2.2))
  | .Register mux => (httpdebug.Register s mux).map (fun r => (r.1, r.2.2))
  | .SetAdminACL acl => (httpdebug.SetAdminACL s acl).map (fun s1 => (none, s1))
  | .SetAdmin auth => (httpdebug.SetAdmin s auth).map (fun s1 => (none, s1))
  | .LocalAdmin => (httpdebug.LocalAdmin s).map (fun s1 => (none, s1))
  | .Handle pat h => (httpdebug.Handle s pat h).map (fun s1 => (none, s1))
  | .HandleFunc pat f => (httpdebug.HandleFunc s pat f).map (fun s1 => (none, s1))
  | .AddProfile name => (httpdebug.AddProfile s name).map (fun s1 => (none, s1))

/-! ## Sample values, used to evaluate the definitions on concrete inputs -/

/-- The handler `okDebugResponse` of the tests. -/
def okDebugResponse : HandlerFunc := .app (fun _ w => w.Write "ok\n")

/-- Collaborators that write nothing and take no time. -/
def Externals.quiet : Externals :=
  { pprof := fun _ _ w => w
    Render := fun _ _ w => w
    RenderEvents := fun _ _ w => w
    elapsed := fun _ => 0 }

/-- Package variables before any `Debug` was registered: sensitive traces are
off and the tracing callback refuses everything. -/
def Globals.start : Globals :=
  { AllowSensitiveTrace := false
    AuthRequest := fun _ _ _ => .ok (false, false) }

/-- The access list of `TestWhitelisting`: only 1.2.3.4. -/
def acl1234 : ACL := BasicACL (BasicAdd NewBasic ip1_2_3_4)

/-- The instance of `TestWhitelisting`: `New(acl, DefaultAdminAuth,
time.Second, false, false)`. -/
def debugWhitelisting : Debug :=
  debug.New (some acl1234) (some debug.DefaultAdminAuth) 1000000000 false false

/-- The run of the tests: `Register`, then `Handle(pat, h)`, then one request
served on a fresh response writer. -/
def serveRegistered (x : Externals) (g : Globals) (d : Debug) (pat : String) (h : Handler)
    (r : Request) : Except String ResponseWriter :=
  match d.Register g with
  | .error e => .error e
  | .ok (g1, d1) =>
    match d1.Handle pat h with
    | .error e => .error e
    | .ok d2 => d2.ServeHTTP x g1 ResponseWriter.fresh r

/-- The package state of a process in which no constructor was called. -/
def Package.empty : Package :=
  { debugger := none
    globals := Globals.start
    DefaultServeMux := ⟨[]⟩ }

/-- The package state after `NewLocalhost(0, false, false)`. -/
def Package.afterNewLocalhost : Package :=
  { Package.empty with debugger := some (debug.NewLocalhost 0 false false) }

/-- An admin authenticator that allows every request. -/
def allowAll : AdminFn := fun _ _ => .ok true

/-- The keys of a map after an assignment to key `k`. -/
def keySet (ks : List String) (k : String) : List String :=
  if k ∈ ks then ks else ks ++ [k]

/-- Every handler of a map is a non-nil handler under a non-empty pattern. -/
def wellFormed (m : List (String × Handler)) : Prop :=
  ∀ e ∈ m, e.1 ≠ "" ∧ e.2 ≠ Handler.nil

/-- The configuration fields two states of a `Debug` share: access list, admin
authenticator, timeout and the two enable flags. -/
def sameConfig (d1 d : Debug) : Prop :=
  d1.acl = d.acl ∧ d1.admin = d.admin ∧ d1.timeo = d.timeo ∧
    d1.enpprof = d.enpprof ∧ d1.entrace = d.entrace

/-- A request for the live-request view from 127.0.0.1. -/
def reqLocal : Request := ⟨"/debug/requests", some ip127_0_0_1⟩

/-- A request for the live-request view whose address cannot be extracted. -/
def reqNoAddr : Request := ⟨"/debug/requests", none⟩

/-- An open instance: `New(nil, allowAll, 0, false, false)`. -/
def debugOpen : Debug := debug.New none (some allowAll) 0 false false

/-- The outcome of `Register` as a pair, the state before it on a panic. -/
def registered (d : Debug) (g : Globals) : Globals × Debug :=
  match d.Register g with
  | .ok p => p
  | .error _ => (g, d)

/-- The access-list stage in the words of the specification: "if no
AccessList is configured, passes the request through unmodified"; if one is
configured, the check with the 403 reply in front of the handler. -/
def AccessListCheck (acl : Option ACL) (h : Handler) : Handler :=
  match acl with
  | none => h
  | some a => .whitelist h (.func .forbidden) a

/-- The timeout stage in the words of the specification: "if the configured
duration is zero, no timeout is applied; otherwise the handler is bounded". -/
def Timeout (duration : Nat) (h : Handler) : Handler :=
  if duration = 0 then h else .timeout h duration "Request Timeout"

/-- The guarded form of a raw handler in the words of the specification:
`Timeout( AccessListCheck(h) )`, the access check inside the timeout. -/
def guardedForm (d : Debug) (h : Handler) : Handler :=
  Timeout d.timeo (AccessListCheck d.acl h)

/-! ## Lemmas on maps, the mux and the wrapping stages -/

theorem mapGet_append_new {α : Type} (m : List (String × α)) (k : String) (v : α)
    (hk : k ∉ mapKeys m) : mapGet (m ++ [(k, v)]) k = some v := by
  induction m with
  | nil => simp [mapGet]
  | cons e rest ih =>
    obtain ⟨k0, v0⟩ := e
    have h0 : k0 ≠ k := by
      intro h
      apply hk
      simp [mapKeys, h]
    have hrest : k ∉ mapKeys rest := by
      intro h
      apply hk
      simp only [mapKeys, List.map_cons, List.mem_cons]
      exact Or.inr h
    simp [mapGet, h0, ih hrest]

theorem ServeMux.Handle_ok (mux m : ServeMux) (pat : String) (h : Handler)
    (hm : mux.Handle pat h = .ok m) :
    m.entries = mux.entries ++ [(pat, h)] ∧ pat ∉ mapKeys mux.entries ∧ h ≠ .nil := by
  unfold ServeMux.Handle at hm
  split at hm
  · cases hm
  · split at hm
    · cases hm
    · split at hm
      · cases hm
      · rename_i hnil hmem
        cases hm
        refine ⟨rfl, hmem, ?_⟩
        intro hh
        exact hnil hh

theorem Debug.timeout_serve (x : Externals) (auth : Request → Except String (Bool × Bool))
    (d : Debug) (h : Handler) (w : ResponseWriter) (r : Request)
    (ht : d.timeo = 0 ∨ x.elapsed r < d.timeo) :
    (d.timeout h).ServeHTTP x auth w r = h.ServeHTTP x auth w r := by
  unfold Debug.timeout
  by_cases h0 : d.timeo = 0
  · simp [h0]
  · have hlt : x.elapsed r < d.timeo := by
      rcases ht with ht | ht
      · exact absurd ht h0
      · exact ht
    simp [h0, Handler.ServeHTTP, hlt]

theorem Debug.aclHandler_some (d : Debug) (acl : ACL) (h : Handler)
    (hacl : d.acl = some acl) (hh : h ≠ .nil) :
    d.aclHandler h = .ok (.whitelist h (.func .forbidden) acl) := by
  unfold Debug.aclHandler
  rw [hacl]
  cases h with
  | nil => exact absurd rfl hh
  | func f => rfl
  | whitelist a b c => rfl
  | timeout a b c => rfl

theorem mapKeys_mapSet {α : Type} (m : List (String × α)) (k : String) (v : α) :
    mapKeys (mapSet m k v) = keySet (mapKeys m) k := by
  induction m with
  | nil => simp [mapSet, mapKeys, keySet]
  | cons e rest ih =>
    obtain ⟨k0, v0⟩ := e
    by_cases h0 : k0 = k
    · subst h0
      simp [mapSet, mapKeys, keySet]
    · have h1 : ¬ k = k0 := fun h => h0 h.symm
      by_cases hmem : k ∈ mapKeys rest
      · have hm : k ∈ List.map Prod.fst rest := hmem
        simp only [mapKeys, keySet, hm, if_true] at ih
        simp [mapSet, mapKeys, keySet, h0, h1, hm, ih]
      · have hm : k ∉ List.map Prod.fst rest := hmem
        simp only [mapKeys, keySet, hm, if_false] at ih
        simp [mapSet, mapKeys, keySet, h0, h1, hm, ih]

theorem wellFormed_mapSet (m : List (String × Handler)) (k : String) (v : Handler)
    (hm : wellFormed m) (hk : k ≠ "") (hv : v ≠ Handler.nil) : wellFormed (mapSet m k v) := by
  induction m with
  | nil =>
    intro e he
    simp only [mapSet, List.mem_singleton] at he
    subst he
    exact ⟨hk, hv⟩
  | cons e0 rest ih =>
    obtain ⟨k0, v0⟩ := e0
    have hrest : wellFormed rest := fun e he => hm e (List.mem_cons_of_mem _ he)
    intro e he
    unfold mapSet at he
    split at he
    · rcases List.mem_cons.mp he with h | h
      · subst h
        exact ⟨hk, hv⟩
      · exact hrest e h
    · rcases List.mem_cons.mp he with h | h
      · subst h
        exact hm _ (List.mem_cons_self _ _)
      · exact ih hrest e h

theorem Debug.setupHandler_ok (d : Debug) (f : HandlerFunc) :
    ∃ h, d.setupHandler f = .ok h ∧ h ≠ Handler.nil := by
  unfold Debug.setupHandler Debug.aclHandlerFunc Debug.aclHandler
  cases hacl : d.acl with
  | none =>
    by_cases h0 : d.timeo = 0 <;> simp [Debug.timeout, h0]
  | some a =>
    by_cases h0 : d.timeo = 0 <;> simp [whitelist.NewHandler, Debug.timeout, h0]

/-- The loop over a table of built-in endpoints always succeeds; it changes
only the registry, whose keys grow by the patterns of the table. -/
theorem Debug.addEndpoints_ok (eps : List (String × HandlerFunc)) :
    ∀ d : Debug, (∀ e ∈ eps, e.1 ≠ "") → wellFormed d.endpoints →
      ∃ d1, d.addEndpoints eps = .ok d1 ∧
        d1.acl = d.acl ∧ d1.admin = d.admin ∧ d1.timeo = d.timeo ∧
        d1.enpprof = d.enpprof ∧ d1.entrace = d.entrace ∧ d1.setup = d.setup ∧
        d1.mux = d.mux ∧
        mapKeys d1.endpoints = (mapKeys eps).foldl keySet (mapKeys d.endpoints) ∧
        wellFormed d1.endpoints := by
  induction eps with
  | nil =>
    intro d _ hwf
    exact ⟨d, rfl, rfl, rfl, rfl, rfl, rfl, rfl, rfl, rfl, hwf⟩
  | cons e rest ih =>
    intro d hpat hwf
    obtain ⟨pat, f⟩ := e
    obtain ⟨h, hh, hne⟩ := Debug.setupHandler_ok d f
    have hp : pat ≠ "" := (hpat (pat, f) (List.mem_cons_self _ _))
    have hrest : ∀ e ∈ rest, e.1 ≠ "" := fun e he => hpat e (List.mem_cons_of_mem _ he)
    obtain ⟨d1, h1, a1, a2, a3, a4, a5, a6, a7, a8, a9⟩ :=
      ih { d with endpoints := mapSet d.endpoints pat h } hrest
        (wellFormed_mapSet d.endpoints pat h hwf hp hne)
    refine ⟨d1, ?_, a1, a2, a3, a4, a5, a6, a7, ?_, a9⟩
    · simp only [Debug.addEndpoints, hh]
      exact h1
    · rw [a8]
      show List.foldl keySet (mapKeys (mapSet d.endpoints pat h)) (mapKeys rest) = _
      rw [mapKeys_mapSet]
      rfl

/-- Registering a well-formed map with distinct patterns, none of them on the
mux yet, succeeds and appends its entries. -/
theorem ServeMux.HandleAll_ok (es : List (String × Handler)) :
    ∀ mux : ServeMux, wellFormed es → (mapKeys es).Nodup →
      (∀ k ∈ mapKeys es, k ∉ mapKeys mux.entries) →
      mux.HandleAll es = .ok ⟨mux.entries ++ es⟩ := by
  induction es with
  | nil =>
    intro mux _ _ _
    simp [ServeMux.HandleAll]
  | cons e rest ih =>
    intro mux hwf hnd hnew
    obtain ⟨pat, h⟩ := e
    have hp := hwf (pat, h) (List.mem_cons_self _ _)
    have hk : pat ∉ mapKeys mux.entries := hnew pat (by simp [mapKeys])
    have hstep : mux.Handle pat h = .ok ⟨mux.entries ++ [(pat, h)]⟩ := by
      unfold ServeMux.Handle
      have h1 : pat ≠ "" := hp.1
      have h2 : h ≠ Handler.nil := hp.2
      cases h with
      | nil => exact absurd rfl h2
      | func f => simp [h1, hk]
      | whitelist a b c => simp [h1, hk]
      | timeout a b c => simp [h1, hk]
    have hwf2 : wellFormed rest := fun e he => hwf e (List.mem_cons_of_mem _ he)
    simp only [mapKeys, List.map_cons, List.nodup_cons] at hnd
    have hnew2 : ∀ k ∈ mapKeys rest,
        k ∉ mapKeys (ServeMux.mk (mux.entries ++ [(pat, h)])).entries := by
      intro k hkr hmem
      simp only [mapKeys, List.map_append, List.map_cons, List.map_nil, List.mem_append,
        List.mem_singleton] at hmem
      rcases hmem with hmem | hmem
      · exact hnew k (by simp only [mapKeys, List.map_cons, List.mem_cons]; exact Or.inr hkr) hmem
      · subst hmem
        exact hnd.1 hkr
    simp only [ServeMux.HandleAll, hstep]
    rw [ih _ hwf2 hnd.2 hnew2]
    simp

theorem Debug.Register_of_setup (d : Debug) (g : Globals) (h : d.setup = true) :
    d.Register g = .ok (g, d) := by
  unfold Debug.Register
  simp [h]

theorem Debug.Register_sets_setup (d : Debug) (g g1 : Globals) (d1 : Debug)
    (h : d.Register g = .ok (g1, d1)) : d1.setup = true := by
  unfold Debug.Register at h
  split at h
  · rename_i hs
    cases h
    exact hs
  · split at h
    · cases h
    · split at h
      · cases h
      · split at h
        · cases h
        · cases h
          rfl

theorem Debug.RegisterTimes_of_setup (n : Nat) (d : Debug) (g : Globals)
    (h : d.setup = true) : Debug.RegisterTimes n d g = .ok (g, d) := by
  induction n with
  | zero => rfl
  | succ k ih => simp [Debug.RegisterTimes, Debug.Register_of_setup d g h, ih]

theorem sameConfig_trans {d2 d1 d : Debug} (h2 : sameConfig d2 d1) (h1 : sameConfig d1 d) :
    sameConfig d2 d :=
  ⟨h2.1.trans h1.1, h2.2.1.trans h1.2.1, h2.2.2.1.trans h1.2.2.1,
    h2.2.2.2.1.trans h1.2.2.2.1, h2.2.2.2.2.trans h1.2.2.2.2⟩

/-- Both branches of `aclAuthRequest` end with the callback of the second
assignment. -/
theorem Debug.aclAuthRequest_eq (d : Debug) (g : Globals) :
    d.aclAuthRequest g = { g with AuthRequest := authACL } := by
  unfold Debug.aclAuthRequest
  cases d.acl <;> rfl

/-- One stage of `Register`: a table of built-in endpoints is added when its
flag is set. -/
theorem Debug.stage_ok (b : Bool) (eps : List (String × HandlerFunc)) (d : Debug)
    (hpat : ∀ e ∈ eps, e.1 ≠ "") (hwf : wellFormed d.endpoints) :
    ∃ d1, (if b = true then d.addEndpoints eps else .ok d) = .ok d1 ∧
      sameConfig d1 d ∧ d1.setup = d.setup ∧ d1.mux = d.mux ∧
      mapKeys d1.endpoints
        = (if b = true then (mapKeys eps).foldl keySet (mapKeys d.endpoints)
            else mapKeys d.endpoints) ∧
      wellFormed d1.endpoints := by
  cases b with
  | false => exact ⟨d, by simp, ⟨rfl, rfl, rfl, rfl, rfl⟩, rfl, rfl, by simp, hwf⟩
  | true =>
    obtain ⟨d1, h1, a1, a2, a3, a4, a5, a6, a7, a8, a9⟩ := Debug.addEndpoints_ok eps d hpat hwf
    exact ⟨d1, by simp [h1], ⟨a1, a2, a3, a4, a5⟩, a6, a7, by simp [a8], a9⟩

theorem Debug.addEndpoints_frame (eps : List (String × HandlerFunc)) :
    ∀ d : Debug, ∃ d1, d.addEndpoints eps = .ok d1 ∧ sameConfig d1 d ∧ d1.setup = d.setup := by
  induction eps with
  | nil =>
    intro d
    exact ⟨d, rfl, ⟨rfl, rfl, rfl, rfl, rfl⟩, rfl⟩
  | cons e rest ih =>
    intro d
    obtain ⟨pat, f⟩ := e
    obtain ⟨h, hh, _⟩ := Debug.setupHandler_ok d f
    obtain ⟨d1, h1, c, a6⟩ := ih { d with endpoints := mapSet d.endpoints pat h }
    refine ⟨d1, ?_, c, a6⟩
    simp only [Debug.addEndpoints, hh]
    exact h1

/-- What the first `Register` leaves unchanged, and the tracing callback after
it. -/
theorem Debug.Register_frame (d : Debug) (g g1 : Globals) (d1 : Debug)
    (hs : d.setup = false) (h : d.Register g = .ok (g1, d1)) :
    sameConfig d1 d ∧ d1.setup = true ∧
      g1 = (if d.entrace = true then { g with AuthRequest := authACL } else g) := by
  have hA : ∃ dA, (if d.enpprof = true then d.pprofSetup else .ok d) = .ok dA ∧
      sameConfig dA d ∧ dA.setup = false := by
    obtain ⟨da, hda, ca, sa⟩ := Debug.addEndpoints_frame pprofEndpoints d
    cases hp : d.enpprof
    · exact ⟨d, by simp, ⟨rfl, rfl, rfl, rfl, rfl⟩, hs⟩
    · exact ⟨da, by simp [Debug.pprofSetup, hs, hda], ca, by rw [sa, hs]⟩
  obtain ⟨dA, hdA, cA, sA⟩ := hA
  have hB : ∃ dB, (if dA.entrace = true then dA.traceSetup g else .ok (g, dA))
      = .ok (if d.entrace = true then { g with AuthRequest := authACL } else g, dB) ∧
      sameConfig dB d := by
    obtain ⟨db, hdb, cb, _⟩ := Debug.addEndpoints_frame traceEndpoints dA
    have he : dA.entrace = d.entrace := cA.2.2.2.2
    cases ht : d.entrace
    · rw [he, ht]
      exact ⟨dA, by simp, cA⟩
    · rw [he, ht]
      refine ⟨db, ?_, sameConfig_trans cb cA⟩
      simp [Debug.traceSetup, sA, hdb, Debug.aclAuthRequest_eq]
  obtain ⟨dB, hdB, cB⟩ := hB
  unfold Debug.Register at h
  rw [if_neg (by simp [hs]), hdA] at h
  simp only [hdB] at h
  split at h
  · cases h
  · cases h
    exact ⟨cB, rfl, rfl⟩

/-- The first `Register` of an instance with an empty registry and an empty
router succeeds; the registry and the router then hold the built-in endpoints
of the enabled subsystems. -/
theorem Debug.Register_fresh (d : Debug) (g : Globals) (hs : d.setup = false)
    (he : d.endpoints = []) (hm : d.mux.entries = []) :
    ∃ d1, d.Register g
        = .ok (if d.entrace = true then { g with AuthRequest := authACL } else g, d1) ∧
      mapKeys d1.endpoints
        = (if d.enpprof = true then mapKeys pprofEndpoints else []) ++
          (if d.entrace = true then mapKeys traceEndpoints else []) ∧
      d1.mux.entries = d1.endpoints ∧ d1.setup = true ∧ sameConfig d1 d := by
  have hwf : wellFormed d.endpoints := by
    rw [he]
    intro e hmem
    cases hmem
  obtain ⟨dA, hdA, cA, sA, mA, kA, wA⟩ :=
    Debug.stage_ok d.enpprof pprofEndpoints d (by simp [pprofEndpoints]) hwf
  obtain ⟨dB, hdB, cB, sB, mB, kB, wB⟩ :=
    Debug.stage_ok d.entrace traceEndpoints dA (by simp [traceEndpoints]) wA
  have hkeys : mapKeys dB.endpoints
      = (if d.enpprof = true then mapKeys pprofEndpoints else []) ++
        (if d.entrace = true then mapKeys traceEndpoints else []) := by
    rw [kB, kA, he]
    cases d.enpprof <;> cases d.entrace <;> decide
  have hnodup : (mapKeys dB.endpoints).Nodup := by
    rw [hkeys]
    cases d.enpprof <;> cases d.entrace <;> decide
  have hmux : dB.mux.entries = [] := by rw [mB, mA, hm]
  have hall : dB.mux.HandleAll dB.endpoints = .ok ⟨dB.endpoints⟩ := by
    have := ServeMux.HandleAll_ok dB.endpoints dB.mux wB hnodup (by simp [hmux, mapKeys])
    simpa [hmux] using this
  have hsA : dA.setup = false := by rw [sA, hs]
  have heA : dA.entrace = d.entrace := cA.2.2.2.2
  have h1 : (if d.enpprof = true then d.pprofSetup else .ok d) = .ok dA := by
    simpa [Debug.pprofSetup, hs] using hdA
  have h2 : (if dA.entrace = true then dA.traceSetup g else .ok (g, dA))
      = .ok (if d.entrace = true then { g with AuthRequest := authACL } else g, dB) := by
    rw [heA]
    cases ht : d.entrace
    · simpa [ht] using hdB
    · have hdB2 : dA.addEndpoints traceEndpoints = .ok dB := by simpa [ht] using hdB
      simp [Debug.traceSetup, hsA, hdB2, Debug.aclAuthRequest_eq]
  refine ⟨{ dB with mux := ⟨dB.endpoints⟩, setup := true }, ?_, hkeys, rfl, rfl,
    sameConfig_trans cB cA⟩
  unfold Debug.Register
  rw [if_neg (by simp [hs]), h1]
  simp only [h2, hall]

/-! ## The properties -/

/-- C1. For a `Debug` whose access list is configured, the handler `aclHandler`
builds around a raw handler `h` answers a request as follows: when the caller's
address is extracted and the list permits it, the reply is the one `h` gives
(status 200 for the ok handler of the tests); when the address is not permitted
or cannot be extracted, the reply is `403 Forbidden` with the standard status
text, whatever `h` is, so `h` is not run. A request to an endpoint registered
with `Handle` on a registered instance reaches that guarded handler whenever
the timeout layer does not cut in. -/
theorem aclHandler_guards_endpoint (x : Externals)
    (auth : Request → Except String (Bool × Bool)) (g : Globals) (d : Debug) (acl : ACL)
    (h : Handler) (w : ResponseWriter) (r : Request)
    (hacl : d.acl = some acl) (hh : h ≠ .nil) :
    ∃ gh, d.aclHandler h = .ok gh ∧
      (∀ ip, r.remote = some ip → acl.Permitted ip = true →
        gh.ServeHTTP x auth w r = h.ServeHTTP x auth w r) ∧
      (∀ ip, r.remote = some ip → acl.Permitted ip = false →
        gh.ServeHTTP x auth w r = .ok (httpError w "Forbidden" 403)) ∧
      (r.remote = none → gh.ServeHTTP x auth w r = .ok (httpError w "Forbidden" 403)) ∧
      (w.status = none → (httpError w "Forbidden" 403).code = 403 ∧
        (httpError w "Forbidden" 403).body = w.body ++ "Forbidden\n") ∧
      (w.status = none → ∃ w1, (Handler.func okDebugResponse).ServeHTTP x auth w r = .ok w1 ∧
        w1.code = 200) ∧
      (∀ pat d1, d.setup = true → d.Handle pat h = .ok d1 → r.path = pat →
        (d.timeo = 0 ∨ x.elapsed r < d.timeo) →
        d1.ServeHTTP x g w r = gh.ServeHTTP x (g.AuthRequest d1 g.AllowSensitiveTrace) w r) := by
  refine ⟨.whitelist h (.func .forbidden) acl, Debug.aclHandler_some d acl h hacl hh,
    ?_, ?_, ?_, ?_, ?_, ?_⟩
  · intro ip hip hperm
    simp [Handler.ServeHTTP, HTTPRequestLookup, hip, hperm]
  · intro ip hip hperm
    simp [Handler.ServeHTTP, HTTPRequestLookup, hip, hperm, HandlerFunc.call, debug.forbidden,
      StatusText, StatusForbidden]
  · intro hnone
    simp [Handler.ServeHTTP, HTTPRequestLookup, hnone, HandlerFunc.call, debug.forbidden,
      StatusText, StatusForbidden]
  · intro hw
    simp [httpError, ResponseWriter.code, ResponseWriter.Write, ResponseWriter.WriteHeader,
      ResponseWriter.setHeader, hw]
  · intro hw
    refine ⟨w.Write "ok\n", ?_, ?_⟩
    · simp [Handler.ServeHTTP, HandlerFunc.call, okDebugResponse]
    · simp [ResponseWriter.code, ResponseWriter.Write, ResponseWriter.WriteHeader, hw]
  · intro pat d1 hset hreg hpath ht
    unfold Debug.Handle at hreg
    rw [Debug.aclHandler_some d acl h hacl hh] at hreg
    simp only at hreg
    split at hreg
    · cases hreg
    · rename_i m hm
      cases hreg
      obtain ⟨hent, hnew, _⟩ := ServeMux.Handle_ok _ _ _ _ hm
      have hlook : m.lookup r.path = some (d.timeout (.whitelist h (.func .forbidden) acl)) := by
        unfold ServeMux.lookup
        rw [hent, hpath, mapGet_append_new _ _ _ hnew]
      simp only [Debug.ServeHTTP, hset, ServeMux.ServeHTTP, hlook]
      simpa using Debug.timeout_serve x _ d _ w r ht

/-- C1, on the instance of `TestWhitelisting`: access list {1.2.3.4}, a request
from 127.0.0.1 to `/debug/ok1` is answered 403, by the guarded handler and by
the registered instance as a whole; a request from 1.2.3.4 gets the reply of
the ok handler. -/
theorem aclHandler_guards_endpoint_witness :
    debugWhitelisting.acl = some acl1234 ∧ Handler.func okDebugResponse ≠ Handler.nil ∧
    (∃ gh, debugWhitelisting.aclHandler (.func okDebugResponse) = .ok gh ∧
      gh.ServeHTTP Externals.quiet (fun _ => .ok (false, false)) ResponseWriter.fresh
          ⟨"/debug/ok1", some ip127_0_0_1⟩ =
        .ok (httpError ResponseWriter.fresh "Forbidden" 403)) ∧
    serveRegistered Externals.quiet Globals.start debugWhitelisting "/debug/ok1"
        (.func okDebugResponse) ⟨"/debug/ok1", some ip127_0_0_1⟩
      = .ok (httpError ResponseWriter.fresh "Forbidden" 403) ∧
    (httpError ResponseWriter.fresh "Forbidden" 403).code = 403 ∧
    serveRegistered Externals.quiet Globals.start debugWhitelisting "/debug/ok1"
        (.func okDebugResponse) ⟨"/debug/ok1", some ip1_2_3_4⟩
      = .ok (ResponseWriter.fresh.Write "ok\n") ∧
    (ResponseWriter.fresh.Write "ok\n").code = 200 := by
  refine ⟨rfl, by simp, ?_, rfl, rfl, rfl, rfl⟩
  obtain ⟨gh, h1, _, h3, _⟩ :=
    aclHandler_guards_endpoint Externals.quiet (fun _ => .ok (false, false)) Globals.start
      debugWhitelisting acl1234 (.func okDebugResponse) ResponseWriter.fresh
      ⟨"/debug/ok1", some ip127_0_0_1⟩ rfl (by simp)
  exact ⟨gh, h1, h3 ip127_0_0_1 rfl (by decide)⟩

/-- C2. When the singleton slot is occupied, `NewLocalhost` and `New` return
`errAlreadyInit` for every choice of arguments, and the package state after
the call is the state before it: the slot holds the same instance, with the
access list, admin authenticator, timeout, flags, setup flag and registry it
had. -/
theorem constructors_on_occupied_slot (s : Package) (d : Debug)
    (timeout : Nat) (pprofDisable traceDisable : Bool)
    (acl : Option ACL) (admin : Option AdminFn) (timeout2 : Nat)
    (pprofDisable2 traceDisable2 : Bool)
    (hocc : s.debugger = some d) :
    httpdebug.NewLocalhost s timeout pprofDisable traceDisable = (some .errAlreadyInit, s) ∧
    httpdebug.New s acl admin timeout2 pprofDisable2 traceDisable2
      = (some .errAlreadyInit, s) ∧
    (httpdebug.NewLocalhost s timeout pprofDisable traceDisable).2.debugger = some d ∧
    (httpdebug.New s acl admin timeout2 pprofDisable2 traceDisable2).2.debugger = some d := by
  unfold httpdebug.NewLocalhost httpdebug.New
  simp [hocc]

/-- C2, on `TestDoubleNew`: after `NewLocalhost(0, false, false)` both
`NewLocalhost(0, true, true)` and `New(nil, nil, 0, false, false)` fail and
change nothing. -/
theorem constructors_on_occupied_slot_witness :
    Package.afterNewLocalhost.debugger = some (debug.NewLocalhost 0 false false) ∧
    httpdebug.NewLocalhost Package.afterNewLocalhost 0 true true
      = (some .errAlreadyInit, Package.afterNewLocalhost) ∧
    httpdebug.New Package.afterNewLocalhost none none 0 false false
      = (some .errAlreadyInit, Package.afterNewLocalhost) :=
  have h := constructors_on_occupied_slot Package.afterNewLocalhost
    (debug.NewLocalhost 0 false false) 0 true true none none 0 false false rfl
  ⟨rfl, h.1, h.2.1⟩

/-- C3 as stated does not hold: on an empty slot not every operation other
than the constructors returns `errNotSetup`; `SetAdmin` panics. -/
theorem not_every_operation_reports_not_setup :
    ¬ (∀ (op : Op) (s : Package), s.debugger = none →
        op.call s = .ok (some .errNotSetup, s)) := by
  intro h
  have h1 := h (.SetAdmin (some allowAll)) Package.empty rfl
  simp [Op.call, httpdebug.SetAdmin, Package.empty, Except.map] at h1

/-- C3, amended. While the singleton slot is empty, `Setup`, `Handler`,
`HandlerFunc` and `Register` return `errNotSetup` (with a nil handler where
they have a handler result) and leave the package state, the empty slot
included, as it was; `SetAdminACL`, `SetAdmin`, `LocalAdmin`, `Handle`,
`HandleFunc` and `AddProfile`, which have no error result, panic with a nil
dereference. -/
theorem operations_on_empty_slot (s : Package) (hempty : s.debugger = none) :
    httpdebug.setup s = .ok (some .errNotSetup, s) ∧
    httpdebug.Setup s = .ok (some .errNotSetup, s) ∧
    httpdebug.Handler s = .ok (none, some .errNotSetup, s) ∧
    httpdebug.HandlerFunc s = .ok (none, some .errNotSetup, s) ∧
    (∀ mux, httpdebug.Register s mux = .ok (some .errNotSetup, mux, s)) ∧
    (∀ acl, httpdebug.SetAdminACL s acl = .error nilDeref) ∧
    (∀ auth, httpdebug.SetAdmin s auth = .error nilDeref) ∧
    httpdebug.LocalAdmin s = .error nilDeref ∧
    (∀ pat h, httpdebug.Handle s pat h = .error nilDeref) ∧
    (∀ pat f, httpdebug.HandleFunc s pat f = .error nilDeref) ∧
    (∀ name, httpdebug.AddProfile s name = .error nilDeref) := by
  have hs : httpdebug.setup s = .ok (some .errNotSetup, s) := by
    unfold httpdebug.setup
    simp [hempty]
  refine ⟨hs, hs, ?_, ?_, ?_, ?_, ?_, ?_, ?_, ?_, ?_⟩
  · unfold httpdebug.Handler
    simp [hs]
  · unfold httpdebug.HandlerFunc
    simp [hs]
  · intro mux
    unfold httpdebug.Register
    simp [hs]
  · intro acl
    unfold httpdebug.SetAdminACL
    simp [hempty]
  · intro auth
    unfold httpdebug.SetAdmin
    simp [hempty]
  · unfold httpdebug.LocalAdmin
    simp [hempty]
  · intro pat h
    unfold httpdebug.Handle
    simp [hempty]
  · intro pat f
    unfold httpdebug.HandleFunc
    simp [hempty]
  · intro name
    unfold httpdebug.AddProfile
    simp [hempty]

/-- C3 amended, on the state of a process that called no constructor (the
calls of `TestUninitErrors`, and `SetAdmin`). -/
theorem operations_on_empty_slot_witness :
    Package.empty.debugger = none ∧
    httpdebug.setup Package.empty = .ok (some .errNotSetup, Package.empty) ∧
    httpdebug.Handler Package.empty = .ok (none, some .errNotSetup, Package.empty) ∧
    httpdebug.Register Package.empty (some ⟨[]⟩)
      = .ok (some .errNotSetup, some ⟨[]⟩, Package.empty) ∧
    httpdebug.SetAdmin Package.empty (some allowAll) = .error nilDeref :=
  have h := operations_on_empty_slot Package.empty rfl
  ⟨rfl, h.1, h.2.2.1, h.2.2.2.2.1 (some ⟨[]⟩), h.2.2.2.2.2.2.1 (some allowAll)⟩

/-- C4. Before `Register` (the setup flag is false) `ServeHTTP` answers every
request, whatever its path and source address, with `500 Internal Server
Error`; the reply is the same for every router content, also after `Handle`
or `HandleFunc` added the path, so nothing is dispatched. -/
theorem serveHTTP_before_register (x : Externals) (g : Globals) (d : Debug)
    (w : ResponseWriter) (r : Request) (hsetup : d.setup = false) :
    d.ServeHTTP x g w r = .ok (httpError w "Internal Server Error" 500) ∧
    (w.status = none → (httpError w "Internal Server Error" 500).code = 500 ∧
      (httpError w "Internal Server Error" 500).body = w.body ++ "Internal Server Error\n") ∧
    (∀ d2 : Debug, d2.setup = false → d2.ServeHTTP x g w r = d.ServeHTTP x g w r) ∧
    (∀ pat h d1, d.Handle pat h = .ok d1 →
      d1.ServeHTTP x g w r = .ok (httpError w "Internal Server Error" 500)) ∧
    (∀ pat f d1, d.HandleFunc pat f = .ok d1 →
      d1.ServeHTTP x g w r = .ok (httpError w "Internal Server Error" 500)) := by
  have key : ∀ d2 : Debug, d2.setup = false →
      d2.ServeHTTP x g w r = .ok (httpError w "Internal Server Error" 500) := by
    intro d2 h2
    simp [Debug.ServeHTTP, h2, StatusText, StatusInternalServerError]
  refine ⟨key d hsetup, ?_, ?_, ?_, ?_⟩
  · intro hw
    simp [httpError, ResponseWriter.code, ResponseWriter.Write, ResponseWriter.WriteHeader,
      ResponseWriter.setHeader, hw]
  · intro d2 h2
    rw [key d2 h2, key d hsetup]
  · intro pat h d1 hreg
    apply key
    unfold Debug.Handle at hreg
    split at hreg
    · cases hreg
    · split at hreg
      · cases hreg
      · cases hreg
        exact hsetup
  · intro pat f d1 hreg
    apply key
    unfold Debug.HandleFunc at hreg
    split at hreg
    · cases hreg
    · split at hreg
      · cases hreg
      · cases hreg
        exact hsetup

/-- C4, on `TestNewLocalhost`: `NewLocalhost(0, false, false)`, not
registered, answers `/debug/pprof` with 500. -/
theorem serveHTTP_before_register_witness :
    (debug.NewLocalhost 0 false false).setup = false ∧
    (debug.NewLocalhost 0 false false).ServeHTTP Externals.quiet Globals.start
        ResponseWriter.fresh ⟨"/debug/pprof", some ip127_0_0_1⟩
      = .ok (httpError ResponseWriter.fresh "Internal Server Error" 500) ∧
    (httpError ResponseWriter.fresh "Internal Server Error" 500).code = 500 :=
  have h := serveHTTP_before_register Externals.quiet Globals.start
    (debug.NewLocalhost 0 false false) ResponseWriter.fresh
    ⟨"/debug/pprof", some ip127_0_0_1⟩ rfl
  ⟨rfl, h.1, (h.2.1 rfl).1⟩

/-- C5. `Register` is idempotent: for every instance and every `N ≥ 1`,
calling it `N` times has the outcome of calling it once (the same setup flag,
registry, router and tracing callback; the same panic when the first call
panics); a call on a registered instance changes nothing, and so does a second
`Setup` of package `httpdebug`. -/
theorem register_idempotent (d : Debug) (g : Globals) (N : Nat) (hN : 1 ≤ N) :
    Debug.RegisterTimes N d g = d.Register g ∧
    (d.setup = true → d.Register g = .ok (g, d)) ∧
    (∀ g1 d1, d.Register g = .ok (g1, d1) →
      d1.setup = true ∧ d1.Register g1 = .ok (g1, d1)) ∧
    (∀ s e s1, httpdebug.Setup s = .ok (e, s1) → httpdebug.Setup s1 = .ok (e, s1)) := by
  refine ⟨?_, Debug.Register_of_setup d g, ?_, ?_⟩
  · obtain ⟨n, rfl⟩ : ∃ n, N = n + 1 := ⟨N - 1, by omega⟩
    unfold Debug.RegisterTimes
    cases hreg : d.Register g with
    | error e => rfl
    | ok p =>
      obtain ⟨g1, d1⟩ := p
      exact Debug.RegisterTimes_of_setup n d1 g1 (Debug.Register_sets_setup d g g1 d1 hreg)
  · intro g1 d1 hreg
    have hs := Debug.Register_sets_setup d g g1 d1 hreg
    exact ⟨hs, Debug.Register_of_setup d1 g1 hs⟩
  · intro s e s1 hsetup
    unfold httpdebug.Setup httpdebug.setup at hsetup
    unfold httpdebug.Setup httpdebug.setup
    cases hdbg : s.debugger with
    | none =>
      simp only [hdbg] at hsetup
      cases hsetup
      simp [hdbg]
    | some d0 =>
      simp only [hdbg] at hsetup
      cases hreg : d0.Register s.globals with
      | error e0 => simp [hreg] at hsetup
      | ok p =>
        obtain ⟨g1, d1⟩ := p
        simp only [hreg] at hsetup
        cases hsetup
        have hs := Debug.Register_sets_setup d0 s.globals g1 d1 hreg
        simp [Debug.Register_of_setup d1 g1 hs]

/-- C5, on `TestDoubleRegistration`: on `NewLocalhost(0, true, true)` two calls
of `Register` give what one call gives, a registered instance with an empty
registry. -/
theorem register_idempotent_witness :
    1 ≤ 2 ∧
    Debug.RegisterTimes 2 (debug.NewLocalhost 0 true true) Globals.start
      = (debug.NewLocalhost 0 true true).Register Globals.start ∧
    (debug.NewLocalhost 0 true true).Register Globals.start
      = .ok (Globals.start, { debug.NewLocalhost 0 true true with setup := true }) :=
  ⟨by decide,
   (register_idempotent (debug.NewLocalhost 0 true true) Globals.start 2 (by decide)).1,
   rfl⟩

/-- C6, the behaviour of the code. On an instance without an access list
(`New(nil, ..)`) the callback `aclAuthRequest` installs is the one of the
second assignment: for a request from 127.0.0.1 it panics on the nil access
list, for a request without an address it returns `(false, false)`, where the
specification has `(true, admin(request))`; for no instance without an access
list and no request does it return `anyAccess = true`. -/
theorem aclAuthRequest_without_acl_refuses :
    debugOpen.acl = none ∧
    (debugOpen.aclAuthRequest Globals.start).AuthRequest debugOpen false reqLocal
      = .error nilDeref ∧
    (debugOpen.aclAuthRequest Globals.start).AuthRequest debugOpen false reqNoAddr
      = .ok (false, false) ∧
    debugOpen.callAdmin false reqLocal = .ok false ∧
    debugOpen.callAdmin false reqNoAddr = .ok false ∧
    (∀ (d : Debug) (g : Globals) (flag : Bool) (r : Request) (s : Bool), d.acl = none →
      (d.aclAuthRequest g).AuthRequest d flag r ≠ .ok (true, s)) := by
  refine ⟨rfl, rfl, rfl, rfl, rfl, ?_⟩
  intro d g flag r s hacl
  rw [Debug.aclAuthRequest_eq]
  cases hr : r.remote with
  | none => simp [authACL, HTTPRequestLookup, hr]
  | some ip => simp [authACL, HTTPRequestLookup, hr, hacl]

/-- C7, the behaviour of the code. `New` given the non-nil authenticator
`allowAll` builds an instance whose admin authenticator answers `false` (the
value of `AllowSensitiveTrace`) where `allowAll` answers `true`: for every
argument list the admin authenticator of the new instance is
`DefaultAdminAuth`. -/
theorem New_discards_admin :
    debugOpen = debug.New none (some allowAll) 0 false false ∧
    debugOpen.callAdmin false reqLocal = .ok false ∧
    allowAll false reqLocal = .ok true ∧
    (∀ acl admin timeout pprofDisable traceDisable,
      (debug.New acl admin timeout pprofDisable traceDisable).admin
        = some debug.DefaultAdminAuth) ∧
    (∀ flag r, debug.DefaultAdminAuth flag r = .ok flag) :=
  ⟨rfl, rfl, rfl, fun _ _ _ _ _ => rfl, fun _ _ => rfl⟩

/-- C8. On an instance with tracing enabled and an access list `a`, registered
by `Register`: after `SetAdmin(p)`, and without another `Register`, the
installed tracing callback returns `sensitiveAccess = p(request)` for every
request whose address `ip` is extracted, and its `anyAccess` is
`a.Permitted(ip)`, the value it had before the `SetAdmin` call; with `p`
always false then always true, `sensitiveAccess` goes from false to true. -/
theorem setAdmin_changes_sensitive_only (d0 : Debug) (g0 g : Globals) (d : Debug) (a : ACL)
    (p : Request → Bool) (r : Request) (ip : IP)
    (hfresh : d0.setup = false) (htrace : d0.entrace = true) (hacl : d0.acl = some a)
    (hreg : d0.Register g0 = .ok (g, d)) (hip : r.remote = some ip) :
    g.AuthRequest (d.SetAdmin (some (fun _ req => .ok (p req)))) g.AllowSensitiveTrace r
      = .ok (a.Permitted ip, p r) ∧
    (∀ res, g.AuthRequest d g.AllowSensitiveTrace r = .ok res → res.1 = a.Permitted ip) ∧
    g.AuthRequest (d.SetAdmin (some (fun _ _ => .ok false))) g.AllowSensitiveTrace r
      = .ok (a.Permitted ip, false) ∧
    g.AuthRequest (d.SetAdmin (some (fun _ _ => .ok true))) g.AllowSensitiveTrace r
      = .ok (a.Permitted ip, true) ∧
    (d.SetAdmin (some (fun _ req => .ok (p req)))).setup = true := by
  obtain ⟨cfg, hset, hg⟩ := Debug.Register_frame d0 g0 g d hfresh hreg
  have hauth : g.AuthRequest = authACL := by
    rw [hg]
    simp [htrace]
  have hdacl : d.acl = some a := by rw [cfg.1, hacl]
  have key : ∀ q : AdminFn, ∀ b, q g.AllowSensitiveTrace r = .ok b →
      g.AuthRequest (d.SetAdmin (some q)) g.AllowSensitiveTrace r
        = .ok (a.Permitted ip, b) := by
    intro q b hq
    rw [hauth]
    simp [authACL, HTTPRequestLookup, hip, Debug.SetAdmin, hdacl, Debug.callAdmin, hq]
  refine ⟨key _ _ rfl, ?_, key _ _ rfl, key _ _ rfl, hset⟩
  intro res hres
  rw [hauth] at hres
  simp only [authACL, HTTPRequestLookup, hip, hdacl] at hres
  split at hres
  · cases hres
  · cases hres
    rfl

/-- C8, on `TestAdminAuth`: `NewLocalhost(0, false, false)` registered, a
request from 127.0.0.1; `SetAdmin` with the always-false and then the
always-true predicate. -/
theorem setAdmin_changes_sensitive_only_witness :
    (debug.NewLocalhost 0 false false).setup = false ∧
    (debug.NewLocalhost 0 false false).entrace = true ∧
    (debug.NewLocalhost 0 false false).acl = some (BasicACL debug.localhost) ∧
    (debug.NewLocalhost 0 false false).Register Globals.start
      = .ok ((registered (debug.NewLocalhost 0 false false) Globals.start).1,
             (registered (debug.NewLocalhost 0 false false) Globals.start).2) ∧
    reqLocal.remote = some ip127_0_0_1 ∧
    (BasicACL debug.localhost).Permitted ip127_0_0_1 = true ∧
    (registered (debug.NewLocalhost 0 false false) Globals.start).1.AuthRequest
        ((registered (debug.NewLocalhost 0 false false) Globals.start).2.SetAdmin
          (some (fun _ _ => .ok false)))
        (registered (debug.NewLocalhost 0 false false) Globals.start).1.AllowSensitiveTrace
        reqLocal
      = .ok ((BasicACL debug.localhost).Permitted ip127_0_0_1, false) ∧
    (registered (debug.NewLocalhost 0 false false) Globals.start).1.AuthRequest
        ((registered (debug.NewLocalhost 0 false false) Globals.start).2.SetAdmin
          (some (fun _ _ => .ok true)))
        (registered (debug.NewLocalhost 0 false false) Globals.start).1.AllowSensitiveTrace
        reqLocal
      = .ok ((BasicACL debug.localhost).Permitted ip127_0_0_1, true) := by
  have hreg : (debug.NewLocalhost 0 false false).Register Globals.start
      = .ok ((registered (debug.NewLocalhost 0 false false) Globals.start).1,
             (registered (debug.NewLocalhost 0 false false) Globals.start).2) := by
    obtain ⟨d1, h, _⟩ :=
      Debug.Register_fresh (debug.NewLocalhost 0 false false) Globals.start rfl rfl rfl
    simp [registered, h]
  have h := setAdmin_changes_sensitive_only (debug.NewLocalhost 0 false false) Globals.start
    (registered (debug.NewLocalhost 0 false false) Globals.start).1
    (registered (debug.NewLocalhost 0 false false) Globals.start).2
    (BasicACL debug.localhost) (fun _ => true) reqLocal ip127_0_0_1 rfl rfl rfl hreg rfl
  exact ⟨rfl, rfl, rfl, hreg, rfl, by decide, h.2.2.1, h.2.2.2.1⟩

/-- C9. After `SetAdminACL(L)` the admin authenticator returns false on a
request whose address cannot be extracted and `L.Permitted(address)` on every
other request; the access list, timeout, enable flags, setup flag, registry
and router of the instance are unchanged. `LocalAdmin()` gives the state
`SetAdminACL` gives on the list that permits exactly 127.0.0.1 and ::1. -/
theorem setAdminACL_authenticator (d : Debug) (L : ACL) (flag : Bool) (r : Request) :
    (r.remote = none → (d.SetAdminACL (some L)).callAdmin flag r = .ok false) ∧
    (∀ ip, r.remote = some ip →
      (d.SetAdminACL (some L)).callAdmin flag r = .ok (L.Permitted ip)) ∧
    (d.SetAdminACL (some L)).acl = d.acl ∧
    (d.SetAdminACL (some L)).timeo = d.timeo ∧
    (d.SetAdminACL (some L)).enpprof = d.enpprof ∧
    (d.SetAdminACL (some L)).entrace = d.entrace ∧
    (d.SetAdminACL (some L)).setup = d.setup ∧
    (d.SetAdminACL (some L)).endpoints = d.endpoints ∧
    (d.SetAdminACL (some L)).mux = d.mux ∧
    d.LocalAdmin = d.SetAdminACL (some (BasicACL [ip127_0_0_1, ipLoopback6])) ∧
    (∀ ip, (BasicACL [ip127_0_0_1, ipLoopback6]).Permitted ip = true ↔
      (ip = ip127_0_0_1 ∨ ip = ipLoopback6)) := by
  refine ⟨?_, ?_, rfl, rfl, rfl, rfl, rfl, rfl, rfl, rfl, ?_⟩
  · intro hr
    simp [Debug.SetAdminACL, Debug.callAdmin, HTTPRequestLookup, hr]
  · intro ip hr
    simp [Debug.SetAdminACL, Debug.callAdmin, HTTPRequestLookup, hr]
  · intro ip
    simp [BasicACL]

/-- C10. On a freshly constructed instance (`New` or `NewLocalhost`) the first
`Register` succeeds, and the paths of the registry are then the seven paths of
`pprofEndpoints` when `pprofDisable` is false, followed by `/debug/requests`
and `/debug/events` when `traceDisable` is false, and no other; with
`traceDisable` true the tracing callback is not installed (the package
variables are unchanged), and with both flags true the registry and the router
are empty. -/
theorem register_builtin_endpoints (g : Globals) (acl : Option ACL) (admin : Option AdminFn)
    (timeout : Nat) (pprofDisable traceDisable : Bool) :
    (∃ g1 d1, (debug.New acl admin timeout pprofDisable traceDisable).Register g = .ok (g1, d1) ∧
      mapKeys d1.endpoints
        = (if pprofDisable = true then [] else mapKeys pprofEndpoints) ++
          (if traceDisable = true then [] else mapKeys traceEndpoints) ∧
      (traceDisable = true → g1 = g) ∧
      (pprofDisable = true → traceDisable = true → d1.endpoints = [] ∧ d1.mux.entries = [])) ∧
    (∃ g1 d1, (debug.NewLocalhost timeout pprofDisable traceDisable).Register g = .ok (g1, d1) ∧
      mapKeys d1.endpoints
        = (if pprofDisable = true then [] else mapKeys pprofEndpoints) ++
          (if traceDisable = true then [] else mapKeys traceEndpoints) ∧
      (traceDisable = true → g1 = g) ∧
      (pprofDisable = true → traceDisable = true → d1.endpoints = [] ∧ d1.mux.entries = [])) ∧
    mapKeys pprofEndpoints
      = ["/debug/pprof", "/debug/pprof/", "/debug/pprof/*", "/debug/pprof/cmdline",
         "/debug/pprof/profile", "/debug/pprof/symbol", "/debug/pprof/trace"] ∧
    mapKeys traceEndpoints = ["/debug/requests", "/debug/events"] := by
  have key : ∀ d : Debug, d.setup = false → d.endpoints = [] → d.mux.entries = [] →
      d.enpprof = !pprofDisable → d.entrace = !traceDisable →
      ∃ g1 d1, d.Register g = .ok (g1, d1) ∧
        mapKeys d1.endpoints
          = (if pprofDisable = true then [] else mapKeys pprofEndpoints) ++
            (if traceDisable = true then [] else mapKeys traceEndpoints) ∧
        (traceDisable = true → g1 = g) ∧
        (pprofDisable = true → traceDisable = true →
          d1.endpoints = [] ∧ d1.mux.entries = []) := by
    intro d hs he hm hp ht
    obtain ⟨d1, hreg, hkeys, hmux, _, _⟩ := Debug.Register_fresh d g hs he hm
    have hk : mapKeys d1.endpoints
        = (if pprofDisable = true then [] else mapKeys pprofEndpoints) ++
          (if traceDisable = true then [] else mapKeys traceEndpoints) := by
      rw [hkeys, hp, ht]
      cases pprofDisable <;> cases traceDisable <;> rfl
    refine ⟨_, d1, hreg, hk, ?_, ?_⟩
    · intro htd
      simp [ht, htd]
    · intro hpd htd
      have hnil : d1.endpoints = [] := by
        have h0 : mapKeys d1.endpoints = [] := by
          rw [hk]
          simp [hpd, htd]
        simpa [mapKeys] using h0
      exact ⟨hnil, by rw [hmux, hnil]⟩
  exact ⟨key _ rfl rfl rfl rfl rfl, key _ rfl rfl rfl rfl rfl, rfl, rfl⟩

/-! ## The wrapping step on its own -/

theorem Debug.setupHandler_eq (d : Debug) (f : HandlerFunc) :
    d.setupHandler f = .ok (guardedForm d (.func f)) := by
  unfold Debug.setupHandler Debug.aclHandlerFunc Debug.aclHandler guardedForm Timeout
    AccessListCheck Debug.timeout
  cases hacl : d.acl with
  | none => simp [StatusText, StatusRequestTimeout]
  | some a => simp [whitelist.NewHandler, StatusText, StatusRequestTimeout]

theorem guardedForm_congr (d1 d : Debug) (h : Handler) (hc : sameConfig d1 d) :
    guardedForm d1 h = guardedForm d h := by
  unfold guardedForm
  rw [hc.1, hc.2.2.1]

/-- The loop over a table of built-in endpoints stores, under each pattern, the
guarded form of the table's function. -/
theorem Debug.addEndpoints_eq (eps : List (String × HandlerFunc)) :
    ∀ d : Debug, d.addEndpoints eps
      = .ok { d with
          endpoints :=
            eps.foldl (fun m e => mapSet m e.1 (guardedForm d (.func e.2))) d.endpoints } := by
  induction eps with
  | nil =>
    intro d
    rfl
  | cons e rest ih =>
    intro d
    obtain ⟨pat, f⟩ := e
    simp only [Debug.addEndpoints, Debug.setupHandler_eq, List.foldl_cons]
    rw [ih]
    rfl

/-- C11 as stated does not hold: on an instance without an access list
`aclHandler(nil)` does not panic, it returns the nil handler. -/
theorem aclHandler_nil_returns_without_acl :
    ¬ (∀ d : Debug, ∃ msg, d.aclHandler Handler.nil = .error msg) := by
  intro h
  obtain ⟨msg, hmsg⟩ := h (debug.New none none 0 false false)
  simp [Debug.aclHandler, debug.New] at hmsg

/-- C11, amended. For every instance whose access list is configured, whatever
its timeout and other fields, `aclHandler(nil)` panics instead of returning a
handler; on an instance without an access list `aclHandler` returns the
handler it is given, the nil handler included. -/
theorem aclHandler_nil_panics_with_acl (d : Debug) (a : ACL) (hacl : d.acl = some a) :
    d.aclHandler Handler.nil = .error "debug: whitelist.NewHandler should never error" ∧
    (∀ d2 : Debug, d2.acl = none → ∀ h, d2.aclHandler h = .ok h) := by
  constructor
  · unfold Debug.aclHandler
    simp [hacl, whitelist.NewHandler]
  · intro d2 h2 h
    unfold Debug.aclHandler
    simp [h2]

/-- C11 amended, on `TestNilHandlerACL`: `NewLocalhost(0, false, false)` panics
on `aclHandler(nil)`. -/
theorem aclHandler_nil_panics_with_acl_witness :
    (debug.NewLocalhost 0 false false).acl = some (BasicACL debug.localhost) ∧
    (debug.NewLocalhost 0 false false).aclHandler Handler.nil
      = .error "debug: whitelist.NewHandler should never error" :=
  ⟨rfl, (aclHandler_nil_panics_with_acl (debug.NewLocalhost 0 false false)
    (BasicACL debug.localhost) rfl).1⟩

/-- C12. For every instance, registered or not, every pattern and every handler
function `f`: `Handle(pattern, HandlerFunc(f))` and `HandleFunc(pattern, f)`
have the same outcome, and the handler they put on the router is the one
`setupHandler` builds for the built-in endpoints of `Register`, the guarded
form `Timeout(AccessListCheck(f))` with the access check inside the timeout;
the timeout stage is the identity when the duration is zero and the access
stage is the identity when no access list is configured; `Register` does not
change the guarded form. -/
theorem handle_installs_guarded_form (d : Debug) (pat : String) (f : HandlerFunc) :
    d.Handle pat (.func f) = d.HandleFunc pat f ∧
    d.setupHandler f = .ok (guardedForm d (.func f)) ∧
    (∀ d1, d.HandleFunc pat f = .ok d1 →
      d1.mux.entries = d.mux.entries ++ [(pat, guardedForm d (.func f))] ∧
      d1.endpoints = d.endpoints ∧ d1.setup = d.setup ∧ sameConfig d1 d) ∧
    (∀ eps, d.addEndpoints eps
      = .ok { d with
          endpoints :=
            eps.foldl (fun m e => mapSet m e.1 (guardedForm d (.func e.2))) d.endpoints }) ∧
    (∀ h, guardedForm d h = d.timeout (AccessListCheck d.acl h)) ∧
    (∀ h a, d.acl = some a →
      guardedForm d h = d.timeout (.whitelist h (.func .forbidden) a)) ∧
    (∀ h, d.timeo = 0 → d.timeout h = h ∧ guardedForm d h = AccessListCheck d.acl h) ∧
    (∀ h, d.acl = none → guardedForm d h = d.timeout h ∧ d.aclHandler h = .ok h) ∧
    (∀ g g1 d1 h, d.Register g = .ok (g1, d1) → guardedForm d1 h = guardedForm d h) := by
  have hform : ∀ h, guardedForm d h = d.timeout (AccessListCheck d.acl h) := by
    intro h
    unfold guardedForm Timeout Debug.timeout
    simp [StatusText, StatusRequestTimeout]
  have hacl : d.aclHandler (.func f) = .ok (AccessListCheck d.acl (.func f)) := by
    unfold Debug.aclHandler AccessListCheck
    cases hc : d.acl with
    | none => rfl
    | some a => simp [whitelist.NewHandler]
  have hsame : d.Handle pat (.func f) = d.HandleFunc pat f := by
    unfold Debug.Handle Debug.HandleFunc
    rw [Debug.setupHandler_eq, hacl, hform]
  refine ⟨hsame, Debug.setupHandler_eq d f, ?_, fun eps => Debug.addEndpoints_eq eps d,
    hform, ?_, ?_, ?_, ?_⟩
  · intro d1 hd1
    unfold Debug.HandleFunc at hd1
    rw [Debug.setupHandler_eq] at hd1
    simp only at hd1
    split at hd1
    · cases hd1
    · rename_i m hm
      cases hd1
      exact ⟨(ServeMux.Handle_ok _ _ _ _ hm).1, rfl, rfl, ⟨rfl, rfl, rfl, rfl, rfl⟩⟩
  · intro h a ha
    rw [hform, ha]
    rfl
  · intro h h0
    constructor
    · unfold Debug.timeout
      simp [h0]
    · unfold guardedForm Timeout
      simp [h0]
  · intro h hnone
    constructor
    · rw [hform, hnone]
      rfl
    · unfold Debug.aclHandler
      simp [hnone]
  · intro g g1 d1 h hreg
    cases hs : d.setup with
    | false => exact guardedForm_congr d1 d h (Debug.Register_frame d g g1 d1 hs hreg).1
    | true =>
      rw [Debug.Register_of_setup d g hs] at hreg
      cases hreg
      rfl

end HttpDebug
